import Mathlib

/-!
Verification development for the gpt-cli command-dispatch and
session-persistence subsystem.

The definitions below are a shallow embedding of the TypeScript sources
`src/lib/command.ts`, `src/lib/session.ts` and `src/lib/model.ts`:

* Chat messages (`BaseMessage` class instances) are records of a role and a
  string content.  The constructor `Role.other t` stands for any value in the
  message position that is not an instance of the three classes
  `SystemMessage` / `HumanMessage` / `AIMessage`; its tag `t` records the
  type string carried by such a value (for example the `type` field of a raw
  record produced by `JSON.parse`).
* The session directory is a list of directory entries in enumeration order;
  a JSON session file's parsed content is kept structurally as a
  `SessionRecord` (the claims under study never involve malformed JSON
  text, only the message-role tags inside a well-formed record).
* Asynchronous effects are sequential in the program (each step is awaited),
  so the dispatcher is a state-passing function over a `World`; throwing is
  the `.err` result, `Deno.exit` is the `.exit` result.  The world carries an
  `autosaveCalls` log recording every invocation of the session store's
  autosave together with its arguments, and an `autoSaveOk` flag modelling
  whether that write succeeds (the dispatcher catches its failure).
-/

/-- Decidable equality on classifier results, so witnesses can be settled
by evaluation. -/
instance {ε α : Type} [DecidableEq ε] [DecidableEq α] :
    DecidableEq (Except ε α) := fun a b =>
  match a, b with
  | Except.error e1, Except.error e2 =>
      if h : e1 = e2 then isTrue (by rw [h]) else isFalse (by simp [h])
  | Except.ok v1, Except.ok v2 =>
      if h : v1 = v2 then isTrue (by rw [h]) else isFalse (by simp [h])
  | Except.error _, Except.ok _ => isFalse (by simp)
  | Except.ok _, Except.error _ => isFalse (by simp)

namespace GptCli

/-- Role of one chat turn: the concrete message variant.  `other t` is any
value that is not an instance of the three langchain message classes; `t` is
its associated type tag. -/
inductive Role where
  | system
  | human
  | ai
  | other (tag : String)
deriving Repr, DecidableEq

/-- One in-memory chat turn (`BaseMessage`): role and text content. -/
structure Message where
  role : Role
  content : String
deriving Repr, DecidableEq

/-- One serialized message record as stored inside a session file:
`{ type, content }`. -/
structure StoredMessage where
  type : String
  content : String
deriving Repr, DecidableEq

/-- Parsed content of one session file:
`{ model, messages, timestamp }` (src/lib/session.ts). -/
structure SessionRecord where
  model : String
  messages : List StoredMessage
  timestamp : String
deriving Repr, DecidableEq

/-- One entry of the session directory, as enumerated by `Deno.readDir`,
together with the stat mtime and the parsed file content. -/
structure DirEntry where
  name : String
  isFile : Bool
  mtime : Nat
  record : SessionRecord
deriving Repr, DecidableEq

/-- `m._getType()` of langchain messages: the tag of the concrete variant. -/
def getType : Role → String
  | Role.system => "system"
  | Role.human => "human"
  | Role.ai => "ai"
  | Role.other tag => tag

/-- `getMessageType` (src/lib/session.ts:55): classifies by `instanceof`
with fallback `"unknown"`. -/
def getMessageType (m : Message) : String :=
  match m.role with
  | Role.human => "human"
  | Role.ai => "ai"
  | Role.system => "system"
  | Role.other _ => "unknown"

/-- Serialization used by `saveSession` (src/lib/session.ts:12):
`{ type: m._getType(), content: m.content }`. -/
def serializeMessage (m : Message) : StoredMessage :=
  { type := getType m.role, content := m.content }

/-- Message revival used by `loadSession` (src/lib/session.ts:22):
known tags restore their variant, any other tag falls back to a
`HumanMessage`. -/
def reviveMessage (sm : StoredMessage) : Message :=
  match sm.type with
  | "system" => { role := Role.system, content := sm.content }
  | "human" => { role := Role.human, content := sm.content }
  | "ai" => { role := Role.ai, content := sm.content }
  | _ => { role := Role.human, content := sm.content }

/-- Round-trip role normalization: serialize then revive. -/
def normalizeMessage (m : Message) : Message :=
  reviveMessage (serializeMessage m)

/-- The command tags of src/lib/command.ts (`enum Command`). -/
inductive Command where
  | help
  | clear
  | modelStack
  | bye
  | file
  | save
  | load
  | sessions
  | delete
  | resumeLatest
deriving Repr, DecidableEq

/-- Result of classification: a bare command or a command with one path
argument (`Command | { command, path }`). -/
inductive CommandRequest where
  | bare (command : Command)
  | withPath (command : Command) (path : String)
deriving Repr, DecidableEq

/-- The command tag carried by a request. -/
def commandOf : CommandRequest → Command
  | CommandRequest.bare c => c
  | CommandRequest.withPath c _ => c

/-- Whitespace characters of the split regex `/[\s\n\t]+/`.  String
primitives are modelled on the character list so every definition stays
kernel-evaluable. -/
def isWsChar (c : Char) : Bool :=
  c = ' ' || c = '\n' || c = '\t' || c = '\r'

/-- JS `String.prototype.trim`: drop whitespace from both ends. -/
def jsTrim (s : String) : String :=
  ⟨((s.data.dropWhile isWsChar).reverse.dropWhile isWsChar).reverse⟩

/-- Accumulator loop splitting a character stream into maximal nonempty
whitespace-free runs. -/
def tokenizeAux : List Char → List Char → List String
  | [], acc => if acc = [] then [] else [⟨acc.reverse⟩]
  | c :: cs, acc =>
      if isWsChar c then
        if acc = [] then tokenizeAux cs []
        else String.mk acc.reverse :: tokenizeAux cs []
      else tokenizeAux cs (c :: acc)

/-- `input.trim().split(/[\s\n\t]+/)` as a token list: the nonempty
whitespace-delimited tokens in order (the whole-input trim makes the JS
split produce no empty tokens except on empty input, where `[""]` and `[]`
agree on every `[0]` / `[1]` / `length > 1` use below). -/
def splitParts (input : String) : List String :=
  tokenizeAux input.data []

/-- The first whitespace-delimited token (`inputParts[0]`; the empty string
when the trimmed input is empty, matching `"".split(...)[0] = ""`). -/
def firstToken (input : String) : String :=
  (splitParts input).headD ""

/-- The fixed token table of `newSlashCommand` (src/lib/command.ts:61). -/
def commandMap : List (String × Command) :=
  [("/help", Command.help),
   ("/?", Command.help),
   ("/clear", Command.clear),
   ("/modelStack", Command.modelStack),
   ("/bye", Command.bye),
   ("/exit", Command.bye),
   ("/quit", Command.bye),
   ("/file", Command.file),
   ("/save", Command.save),
   ("/load", Command.load),
   ("/sessions", Command.sessions),
   ("/delete", Command.delete),
   ("/resume-latest", Command.resumeLatest)]

/-- Exact lookup of a token in the table. -/
def lookupCommand (tok : String) : Option Command :=
  (commandMap.find? (fun p => p.1 = tok)).map (fun p => p.2)

/-- `newSlashCommand` (src/lib/command.ts:56): split the input, look the
first token up in the table (unknown token throws), and attach the second
token as path for File/Save/Load/Delete when present. -/
def newSlashCommand (input : String) : Except String CommandRequest :=
  let inputParts := splitParts input
  let input0 := firstToken input
  match lookupCommand input0 with
  | none => Except.error ("Invalid command. " ++ input0)
  | some command =>
      if (command = Command.file ∨ command = Command.save ∨
          command = Command.load ∨ command = Command.delete) ∧
          inputParts.length > 1 then
        Except.ok (CommandRequest.withPath command (inputParts.getD 1 ""))
      else
        Except.ok (CommandRequest.bare command)

/-- The `{ model, message }` pair of the at-mention parser. -/
structure ModelMessage where
  model : String
  message : String
deriving Repr, DecidableEq

/-- `extractAtModel` (src/lib/command.ts:98): match `^@[^\s\n\t]+`; on a
match the model is the run after `@` and the message is the rest trimmed,
otherwise the model is empty and the message is the whole input. -/
def extractAtModel (input : String) : ModelMessage :=
  match input.data with
  | '@' :: rest =>
      let modelToken := rest.takeWhile (fun c => ¬ isWsChar c)
      if modelToken ≠ [] then
        { model := ⟨modelToken⟩,
          message := jsTrim ⟨rest.drop modelToken.length⟩ }
      else
        { model := "", message := input }
  | _ => { model := "", message := input }

/-- `isAtCommand` (src/lib/command.ts:247) on the content string: empty
content is not an at-command, otherwise test the leading `@` (an empty
string has no leading character, so the two checks fold into one match). -/
def isAtCommand (content : String) : Bool :=
  match content.data with
  | '@' :: _ => true
  | _ => false

/-- `getMessageFromHistory` (src/lib/command.ts:258):
`messages.length > |index|` guards reading `messages[messages.length + index]`. -/
def getMessageFromHistory (messages : List Message) (index : Int) : Option String :=
  if (messages.length : Int) > (index.natAbs : Int) then
    (messages[(((messages.length : Int) + index).toNat)]?).map (fun m => m.content)
  else
    none

/-- `handleAtCommand` (src/lib/command.ts:267): without a leading `@` the
content and default model pass through; otherwise the extracted model (or
the default when empty) is paired with the extracted message, falling back
to `getMessageFromHistory(messages)` and then to `""` when empty/absent. -/
def handleAtCommand (content : String) (messages : List Message)
    (model : String) : ModelMessage :=
  if ¬ isAtCommand content then
    { model := model, message := content }
  else
    let extracted := extractAtModel content
    let newMessage :=
      if extracted.message ≠ "" then extracted.message
      else (getMessageFromHistory messages (-2)).getD ""
    { model := if extracted.model ≠ "" then extracted.model else model,
      message := newMessage }

/-- A directory entry holding a session file: a file whose name ends in
`.json` (the filter of `listSessions` and `resumeLatestSession`). -/
def sessionFileB (e : DirEntry) : Bool :=
  e.isFile && ".json".data.isSuffixOf e.name.data

/-- `Deno.writeTextFile` on the session directory: overwrite the entry of
that name in place, or append a fresh entry at the end of the enumeration. -/
def storeWrite (store : List DirEntry) (fname : String) (e : DirEntry) :
    List DirEntry :=
  if store.any (fun x => x.name = fname) then
    store.map (fun x => if x.name = fname then e else x)
  else
    store ++ [e]

/-- `Deno.readTextFile` on the session directory: the first file entry of
that name (reading a non-file fails). -/
def storeRead (store : List DirEntry) (fname : String) : Option DirEntry :=
  store.find? (fun x => x.name = fname && x.isFile)

/-- `saveSession` (src/lib/session.ts:7): write
`{ model, messages: messages.map(m => ({type: m._getType(), content})), timestamp }`
to `<name>.json`.  `now` is the ISO timestamp and `mt` the mtime the write
leaves on the file. -/
def saveSessionStore (name : String) (messages : List Message) (model : String)
    (now : String) (mt : Nat) (store : List DirEntry) : List DirEntry :=
  storeWrite store (name ++ ".json")
    { name := name ++ ".json", isFile := true, mtime := mt,
      record := { model := model,
                  messages := messages.map serializeMessage,
                  timestamp := now } }

/-- `loadSession` (src/lib/session.ts:18): read `<name>.json` (a missing
file throws) and revive each stored message. -/
def loadSession (name : String) (store : List DirEntry) :
    Except String (String × List Message) :=
  match storeRead store (name ++ ".json") with
  | none => Except.error ("No such file: " ++ name ++ ".json")
  | some e =>
      Except.ok (e.record.model, e.record.messages.map reviveMessage)

/-- Loop removing the first occurrence of `.json` from a character list. -/
def removeFirstJson : List Char → List Char
  | [] => []
  | c :: cs =>
      if ".json".data.isPrefixOf (c :: cs) then cs.drop 4
      else c :: removeFirstJson cs

/-- Remove the first occurrence of `.json` from a name
(`entry.name.replace(".json", "")` replaces only the first match). -/
def dropJsonTag (s : String) : String :=
  ⟨removeFirstJson s.data⟩

/-- `listSessions` (src/lib/session.ts:36): the names of the `.json` file
entries with the first `.json` removed; enumeration failure degrades to an
empty list (the store model always enumerates). -/
def listSessions (store : List DirEntry) : List String :=
  (store.filter sessionFileB).map (fun e => dropJsonTag e.name)

/-- `deleteSession` (src/lib/session.ts:50): `Deno.remove` of `<name>.json`;
a missing entry rejects. -/
def deleteSessionStore (name : String) (store : List DirEntry) :
    Except String (List DirEntry) :=
  if store.any (fun e => e.name = name ++ ".json") then
    Except.ok (store.filter (fun e => e.name ≠ name ++ ".json"))
  else
    Except.error ("No such file: " ++ name ++ ".json")

/-- `new Date().toISOString().replace(/[:.]/g, "-")`. -/
def sanitizeTimestamp (s : String) : String :=
  ⟨s.data.map (fun c => if c = ':' ∨ c = '.' then '-' else c)⟩

/-- `autoSave` (src/lib/session.ts:62): write the history under
`autosave-<sanitized timestamp>.json`, serializing each message with
`getMessageType` (unknown variants become `"unknown"`). -/
def autoSaveStore (messages : List Message) (model : String) (now : String)
    (mt : Nat) (store : List DirEntry) : List DirEntry :=
  let name := "autosave-" ++ sanitizeTimestamp now
  storeWrite store (name ++ ".json")
    { name := name ++ ".json", isFile := true, mtime := mt,
      record := { model := model,
                  messages := messages.map
                    (fun m => { type := getMessageType m, content := m.content }),
                  timestamp := now } }

/-- The enumeration loop of `resumeLatestSession` (src/lib/session.ts:84):
keep the `.json` file entry whose mtime strictly exceeds the best mtime seen
so far (initially 0). -/
def resumeScan : List DirEntry → Option DirEntry → Nat → Option DirEntry
  | [], best, _ => best
  | e :: rest, best, t =>
      if sessionFileB e && t < e.mtime then resumeScan rest (some e) e.mtime
      else resumeScan rest best t

/-- `resumeLatestSession` (src/lib/session.ts:79): the parsed content of the
latest session file, or `none` when no file was selected. -/
def resumeLatestSession (store : List DirEntry) : Option SessionRecord :=
  (resumeScan store none 0).map (fun e => e.record)

/-- Outcome of the File Loader collaborator for one matched file.
Modelled from the spec: `file.ts` is not under src/; §6 gives the
collaborator interface `readAndFormat(path) -> formatted text or failure`,
so one matched file yields either a failure (caught per file by the
dispatcher) or its formatted text (skipped when empty). -/
inductive FileOutcome where
  | failed
  | parsed (content : String)
deriving Repr, DecidableEq

/-- The per-file loop of the File command (src/lib/command.ts:126):
count the files with nonempty formatted content and concatenate each
followed by a blank line; failures are skipped. -/
def processFiles : List FileOutcome → Nat × String
  | [] => (0, "")
  | FileOutcome.failed :: rest => processFiles rest
  | FileOutcome.parsed c :: rest =>
      let r := processFiles rest
      if c ≠ "" then (r.1 + 1, c ++ "\n\n" ++ r.2) else r

/-- `modelStack.add` on the insertion-ordered set. -/
def addModel (stack : List String) (model : String) : List String :=
  if model ∈ stack then stack else stack ++ [model]

/-- The program state the dispatcher reads and writes: the session
directory, the CLI's current default model (`cli.params.model`), the
process-wide model stack, whether the next autosave write succeeds, the File
Loader outcomes for the current pattern, the current clock, and a log of
every autosave invocation (history and model it was called with). -/
structure World where
  store : List DirEntry
  defaultModel : String
  modelStack : List String
  autoSaveOk : Bool
  fileResults : List FileOutcome
  now : String
  nowTime : Nat
  autosaveCalls : List (List Message × String)
deriving Repr, DecidableEq

/-- Outcome of one dispatcher turn: a normal return of the next history, a
process exit (`Deno.exit`), or a thrown error. -/
inductive DispatchResult where
  | ok (messages : List Message) (w : World)
  | exit (code : Nat)
  | err (msg : String) (w : World)
deriving Repr, DecidableEq

/-- The autosave block of `handleSlashCommand` (src/lib/command.ts:234):
invoke `autoSave(messages, cli.params.model)` inside try/catch — the
invocation is logged, the write happens only when it succeeds, and a failure
is only reported. -/
def doAutoSave (messages : List Message) (w : World) : World :=
  let w1 := { w with autosaveCalls := w.autosaveCalls ++ [(messages, w.defaultModel)] }
  if w.autoSaveOk then
    { w1 with store := autoSaveStore messages w.defaultModel w.now w.nowTime w1.store }
  else
    w1

/-- The raw history produced by the ResumeLatest branch
(src/lib/command.ts:218): `JSON.parse(content).messages` is returned as-is,
so each entry is a plain record, not an instance of a message class — its
role position holds the stored tag verbatim. -/
def rawRestoredMessages (stored : List StoredMessage) : List Message :=
  stored.map (fun sm => { role := Role.other sm.type, content := sm.content })

/-- The `switch` of `handleSlashCommand` (src/lib/command.ts:189) plus the
code after it: Clear filters, ResumeLatest restores or reports, Bye exits;
every other tag falls through the switch to the autosave block and returns
the history unchanged. -/
def runBare (command : Command) (messages : List Message) (w : World) :
    DispatchResult :=
  match command with
  | Command.clear =>
      DispatchResult.ok (messages.filter (fun m => m.role = Role.system)) w
  | Command.resumeLatest =>
      match resumeLatestSession w.store with
      | some record =>
          DispatchResult.ok (rawRestoredMessages record.messages)
            { w with modelStack := addModel w.modelStack record.model,
                     defaultModel := record.model }
      | none => DispatchResult.ok messages w
  | Command.bye => DispatchResult.exit 0
  | _ => DispatchResult.ok messages (doAutoSave messages w)

/-- `handleSlashCommand` (src/lib/command.ts:106).  A request with a path
runs the File/Save/Load/Delete branches (each returns without reaching the
autosave block; Load and Delete propagate their store failures); any other
tag with a path, and every bare tag, goes through the switch (`runBare`). -/
def handleSlashCommand (commandInput : CommandRequest)
    (messages : List Message) (w : World) : DispatchResult :=
  match commandInput with
  | CommandRequest.withPath command path =>
      match command with
      | Command.file =>
          let r := processFiles w.fileResults
          if r.1 > 0 then
            DispatchResult.ok
              (messages ++
                [{ role := Role.human,
                   content := "Here are the file(s) I\x27m attaching (" ++
                     toString r.1 ++ " file(s)):\n" ++ jsTrim r.2 }]) w
          else
            DispatchResult.ok messages w
      | Command.save =>
          DispatchResult.ok messages
            { w with store := saveSessionStore path messages w.defaultModel
                       w.now w.nowTime w.store }
      | Command.load =>
          match loadSession path w.store with
          | Except.error e => DispatchResult.err e w
          | Except.ok (model, loadedMessages) =>
              DispatchResult.ok loadedMessages
                { w with modelStack := addModel w.modelStack model,
                         defaultModel := model }
      | Command.delete =>
          match deleteSessionStore path w.store with
          | Except.error e => DispatchResult.err e w
          | Except.ok store2 =>
              DispatchResult.ok messages { w with store := store2 }
      | _ => runBare command messages w
  | CommandRequest.bare command => runBare command messages w

/-- The generation parameters handed to the model constructors
(src/lib/params.ts is a thin argument record; the fields used by
src/lib/model.ts are listed here).  Temperature is kept abstract as an
integer payload — no claim depends on its arithmetic. -/
structure Params where
  model : String
  temperature : Int
  maxTokens : Nat
  apiKey : String
  apiVersion : String
  endpoint : String
deriving Repr, DecidableEq

/-- Constructor arguments of `new ChatOpenAI({...})`; `maxTokens = none`
models the field being omitted. -/
structure ChatOpenAIArgs where
  modelName : String
  temperature : Int
  maxTokens : Option Nat
deriving Repr, DecidableEq

/-- Constructor arguments of `new ChatAnthropic({...})`. -/
structure ChatAnthropicArgs where
  modelName : String
  temperature : Int
  maxTokens : Nat
deriving Repr, DecidableEq

/-- Constructor arguments of `new ChatGoogleGenerativeAI({...})` (the
provider-specific output-token field). -/
structure ChatGoogleArgs where
  model : String
  temperature : Int
  maxOutputTokens : Nat
deriving Repr, DecidableEq

/-- Constructor arguments of `new ChatXAI({...})`. -/
structure ChatXAIArgs where
  model : String
  temperature : Int
  maxTokens : Nat
deriving Repr, DecidableEq

/-- Constructor arguments of `new AzureChatOpenAI({...})`. -/
structure AzureArgs where
  azureOpenAIApiKey : String
  azureOpenAIApiVersion : String
  azureOpenAIEndpoint : String
  deploymentName : String
  temperature : Int
  maxTokens : Nat
deriving Repr, DecidableEq

/-- A constructed backend instance (`CloseModel` of src/lib/model.ts),
carrying the arguments its constructor received. -/
inductive CloseModel where
  | chatOpenAI (args : ChatOpenAIArgs)
  | chatAnthropic (args : ChatAnthropicArgs)
  | chatGoogleGenerativeAI (args : ChatGoogleArgs)
  | chatXAI (args : ChatXAIArgs)
  | azureChatOpenAI (args : AzureArgs)
deriving Repr, DecidableEq

/-- `createOpenAIInstance` (src/lib/model.ts:44): model, temperature and
maxTokens all forwarded. -/
def createOpenAIInstance (params : Params) : CloseModel :=
  CloseModel.chatOpenAI
    { modelName := params.model, temperature := params.temperature,
      maxTokens := some params.maxTokens }

/-- `createOpenAIOModelInstance` (src/lib/model.ts:52): maxTokens is
intentionally not forwarded. -/
def createOpenAIOModelInstance (params : Params) : CloseModel :=
  CloseModel.chatOpenAI
    { modelName := params.model, temperature := params.temperature,
      maxTokens := none }

/-- `createAnthropicInstance` (src/lib/model.ts:60). -/
def createAnthropicInstance (params : Params) : CloseModel :=
  CloseModel.chatAnthropic
    { modelName := params.model, temperature := params.temperature,
      maxTokens := params.maxTokens }

/-- `createGoogleGenerativeAIInstance` (src/lib/model.ts:68). -/
def createGoogleGenerativeAIInstance (params : Params) : CloseModel :=
  CloseModel.chatGoogleGenerativeAI
    { model := params.model, temperature := params.temperature,
      maxOutputTokens := params.maxTokens }

/-- `createXAIInstance` (src/lib/model.ts:78). -/
def createXAIInstance (params : Params) : CloseModel :=
  CloseModel.chatXAI
    { model := params.model, temperature := params.temperature,
      maxTokens := params.maxTokens }

/-- `createAzureOpenAIInstance` (src/lib/model.ts:96): the deployment name
is the identifier with a literal leading `azure-` stripped. -/
def createAzureOpenAIInstance (params : Params) : CloseModel :=
  let deploymentName : String :=
    if "azure-".data.isPrefixOf params.model.data then
      ⟨params.model.data.drop 6⟩
    else params.model
  CloseModel.azureChatOpenAI
    { azureOpenAIApiKey := params.apiKey,
      azureOpenAIApiVersion := params.apiVersion,
      azureOpenAIEndpoint := params.endpoint,
      deploymentName := deploymentName,
      temperature := params.temperature,
      maxTokens := params.maxTokens }

/-- Names for the six construction strategies registered in `modelMap`. -/
inductive StrategyTag where
  | openai
  | openaiO
  | anthropic
  | google
  | xai
  | azure
deriving Repr, DecidableEq

/-- The construction function each tag names. -/
def applyStrategy : StrategyTag → Params → CloseModel
  | StrategyTag.openai => createOpenAIInstance
  | StrategyTag.openaiO => createOpenAIOModelInstance
  | StrategyTag.anthropic => createAnthropicInstance
  | StrategyTag.google => createGoogleGenerativeAIInstance
  | StrategyTag.xai => createXAIInstance
  | StrategyTag.azure => createAzureOpenAIInstance

/-- The anchored patterns of `modelMap` (src/lib/model.ts:111), as
predicates on the identifier: `^gpt`, `^o[0-9]`, `^claude`, `^gem`,
`^grok`, `^azure`. -/
def matchesModelKey (key : String) (model : String) : Bool :=
  if key = "^gpt" then "gpt".data.isPrefixOf model.data
  else if key = "^o[0-9]" then
    match model.data with
    | 'o' :: d :: _ => d.isDigit
    | _ => false
  else if key = "^claude" then "claude".data.isPrefixOf model.data
  else if key = "^gem" then "gem".data.isPrefixOf model.data
  else if key = "^grok" then "grok".data.isPrefixOf model.data
  else if key = "^azure" then "azure".data.isPrefixOf model.data
  else false

/-- `modelMap` (src/lib/model.ts:111): the ordered pattern→strategy table. -/
def modelMap : List (String × StrategyTag) :=
  [("^gpt", StrategyTag.openai),
   ("^o[0-9]", StrategyTag.openaiO),
   ("^claude", StrategyTag.anthropic),
   ("^gem", StrategyTag.google),
   ("^grok", StrategyTag.xai),
   ("^azure", StrategyTag.azure)]

/-- Modelled from the spec: the consumer of `modelMap` is not under src/
(only the table and the strategies are); §4.3 specifies that the rules are
"tested against the identifier with the first matching strategy winning;
unmatched identifiers are a configuration error (no fallback)". -/
def resolveModel (model : String) : Option StrategyTag :=
  (modelMap.find? (fun p => matchesModelKey p.1 model)).map (fun p => p.2)

/-- Concrete one-message history used by witnesses. -/
def exH : List Message := [{ role := Role.human, content := "hi" }]

/-- Concrete world over an empty session directory whose next autosave
write would fail (exercising the catch path). -/
def exW : World :=
  { store := [], defaultModel := "gpt-4", modelStack := [],
    autoSaveOk := false, fileResults := [],
    now := "2026-01-01T00:00:00.000Z", nowTime := 10, autosaveCalls := [] }

/-- The world left by dispatching a bare Help on `exH` over `exW`. -/
def exWAfterHelp : World :=
  match handleSlashCommand (CommandRequest.bare Command.help) exH exW with
  | DispatchResult.ok _ w => w
  | _ => exW

/-- Concrete history whose second-to-last entry is an AI turn while an
earlier user turn exists. -/
def exHist2 : List Message :=
  [{ role := Role.human, content := "earlier question" },
   { role := Role.ai, content := "the reply" },
   { role := Role.human, content := "@claude-3" }]

/-- A stored record carrying a message whose role tag is none of
system/human/ai. -/
def exRecord8 : SessionRecord :=
  { model := "m-8", messages := [{ type := "weird", content := "x" }],
    timestamp := "t0" }

/-- A session directory holding only the file with the unknown role tag. -/
def exStore8 : List DirEntry :=
  [{ name := "s.json", isFile := true, mtime := 1, record := exRecord8 }]

/-- A world over `exStore8`. -/
def exW8 : World :=
  { store := exStore8, defaultModel := "gpt-4", modelStack := [],
    autoSaveOk := true, fileResults := [],
    now := "2026-01-01T00:00:00.000Z", nowTime := 2, autosaveCalls := [] }

/-- A session directory mixing two session files of distinct mtimes, a
non-json file and a non-file entry. -/
def exStore7 : List DirEntry :=
  [{ name := "a.json", isFile := true, mtime := 5,
     record := { model := "m-a", messages := [], timestamp := "ta" } },
   { name := "b.json", isFile := true, mtime := 9,
     record := { model := "m-b", messages := [], timestamp := "tb" } },
   { name := "notes.txt", isFile := true, mtime := 50,
     record := { model := "m-c", messages := [], timestamp := "tc" } },
   { name := "d.json", isFile := false, mtime := 99,
     record := { model := "m-d", messages := [], timestamp := "td" } }]

/-- A world over `exStore7`. -/
def exW7 : World :=
  { store := exStore7, defaultModel := "gpt-4", modelStack := [],
    autoSaveOk := true, fileResults := [],
    now := "2026-01-01T00:00:00.000Z", nowTime := 100, autosaveCalls := [] }

/-- Reading back the file just written to the session directory yields
exactly the written entry, whatever the directory held before. -/
theorem storeRead_storeWrite_self (store : List DirEntry) (fname : String)
    (e : DirEntry) (hn : e.name = fname) (hf : e.isFile = true) :
    storeRead (storeWrite store fname e) fname = some e := by
  induction store with
  | nil => simp [storeWrite, storeRead, hn, hf]
  | cons x xs ih =>
      by_cases hx : x.name = fname
      · simp [storeWrite, storeRead, hx, hn, hf]
      · simp only [storeWrite] at ih ⊢
        by_cases hxs : (xs.any fun y => decide (y.name = fname)) = true
        · have hany : ((x :: xs).any fun y => decide (y.name = fname)) = true := by
            simp [hxs]
          rw [if_pos hany, List.map_cons, if_neg hx]
          rw [if_pos hxs] at ih
          simp only [storeRead] at ih ⊢
          rw [List.find?_cons_of_neg _ (by simp [hx])]
          exact ih
        · have hany : ¬ (((x :: xs).any fun y => decide (y.name = fname)) = true) := by
            simp [hxs, hx]
          rw [if_neg hany, List.cons_append]
          rw [if_neg hxs] at ih
          simp only [storeRead] at ih ⊢
          rw [List.find?_cons_of_neg _ (by simp [hx])]
          exact ih

/-- Revival never changes the text content of a stored message. -/
theorem reviveMessage_content (sm : StoredMessage) :
    (reviveMessage sm).content = sm.content := by
  unfold reviveMessage
  split <;> rfl

/-- C3: for every history, model, name, clock and prior directory state,
loading the session just saved under that name succeeds and yields the same
model together with the history mapped through role-normalization; the
normalized history has the same number of messages and the same contents in
the same order. -/
theorem save_load_roundtrip (name : String) (hist : List Message) (M : String)
    (now : String) (mt : Nat) (store : List DirEntry) :
    loadSession name (saveSessionStore name hist M now mt store) =
      Except.ok (M, hist.map normalizeMessage) ∧
    (hist.map normalizeMessage).length = hist.length ∧
    (hist.map normalizeMessage).map (fun m => m.content) =
      hist.map (fun m => m.content) := by
  refine ⟨?_, by simp, ?_⟩
  · have hread := storeRead_storeWrite_self store (name ++ ".json")
      { name := name ++ ".json", isFile := true, mtime := mt,
        record := { model := M, messages := hist.map serializeMessage,
                    timestamp := now } } rfl rfl
    unfold saveSessionStore loadSession
    rw [hread]
    simp only [List.map_map]
    rfl
  · simp only [List.map_map]
    exact List.map_congr_left (fun m _ => reviveMessage_content _)

/-- C5: dispatching Clear returns exactly the subsequence of system-role
entries of the history, in their original relative order, without touching
the rest of the world; dispatching Clear again on that result returns it
unchanged. -/
theorem clear_filters_system_and_idempotent (h : List Message) (w : World) :
    ∃ r, handleSlashCommand (CommandRequest.bare Command.clear) h w =
        DispatchResult.ok r w ∧
      r = h.filter (fun m => m.role = Role.system) ∧
      r.Sublist h ∧
      (∀ m : Message, m ∈ r ↔ m ∈ h ∧ m.role = Role.system) ∧
      handleSlashCommand (CommandRequest.bare Command.clear) r w =
        DispatchResult.ok r w := by
  refine ⟨h.filter (fun m => m.role = Role.system), rfl, rfl,
    List.filter_sublist h, ?_, ?_⟩
  · intro m
    simp [List.mem_filter]
  · show DispatchResult.ok ((h.filter _).filter _) w = _
    rw [List.filter_filter]
    simp

/-- C4: model resolution is a function of the identifier (hence
deterministic); `"gpt-4"` resolves to the generic OpenAI strategy, which
forwards maxTokens; `"o1-preview"` resolves to the o-series strategy, which
omits maxTokens; `"azure-mydeploy"` resolves to the Azure strategy, whose
deployment name is `"mydeploy"` — the literal `azure-` taken off. -/
theorem model_resolution_cases :
    resolveModel "gpt-4" = some StrategyTag.openai ∧
    resolveModel "o1-preview" = some StrategyTag.openaiO ∧
    resolveModel "azure-mydeploy" = some StrategyTag.azure ∧
    (∀ params : Params, applyStrategy StrategyTag.openai params =
      CloseModel.chatOpenAI
        { modelName := params.model, temperature := params.temperature,
          maxTokens := some params.maxTokens }) ∧
    (∀ params : Params, applyStrategy StrategyTag.openaiO params =
      CloseModel.chatOpenAI
        { modelName := params.model, temperature := params.temperature,
          maxTokens := none }) ∧
    (∀ params : Params,
      applyStrategy StrategyTag.azure { params with model := "azure-mydeploy" } =
      CloseModel.azureChatOpenAI
        { azureOpenAIApiKey := params.apiKey,
          azureOpenAIApiVersion := params.apiVersion,
          azureOpenAIEndpoint := params.endpoint,
          deploymentName := "mydeploy",
          temperature := params.temperature,
          maxTokens := params.maxTokens }) := by
  have hp : ("azure-".data.isPrefixOf "azure-mydeploy".data) = true := by decide
  have hd : (⟨"azure-mydeploy".data.drop 6⟩ : String) = "mydeploy" := by decide
  refine ⟨by decide, by decide, by decide,
    fun params => rfl, fun params => rfl, fun params => ?_⟩
  show createAzureOpenAIInstance _ = _
  simp [createAzureOpenAIInstance, hp, hd]

/-- C6: any input whose first whitespace-delimited token starts with `/`
but is missing from the command token table makes classification fail with
the unknown-command error; the classifier is a pure function of the input
alone — no history is consulted or produced, so none is changed. -/
theorem unknown_slash_token_fails (input : String)
    (hslash : (firstToken input).data.head? = some '/')
    (hmiss : lookupCommand (firstToken input) = none) :
    newSlashCommand input =
      Except.error ("Invalid command. " ++ firstToken input) := by
  have : (firstToken input).data.head? = some '/' := hslash
  simp [newSlashCommand, hmiss]

/-- C6 witness at `"/bogus"`. -/
theorem unknown_slash_token_fails_witness :
    (firstToken "/bogus").data.head? = some '/' ∧
    lookupCommand (firstToken "/bogus") = none ∧
    newSlashCommand "/bogus" =
      Except.error ("Invalid command. " ++ firstToken "/bogus") :=
  ⟨by decide, by decide,
    unknown_slash_token_fails "/bogus" (by decide) (by decide)⟩

/-- C9: the classifier throws for every input whose first token is not in
the table — whether or not it starts with `/` — and its return type offers
no chat-content outcome at all. -/
theorem classifier_rejects_unknown_token (input : String)
    (hmiss : lookupCommand (firstToken input) = none) :
    newSlashCommand input =
      Except.error ("Invalid command. " ++ firstToken input) := by
  simp [newSlashCommand, hmiss]

/-- C9 witness at `"hello"`, which does not start with `/`. -/
theorem classifier_rejects_unknown_token_witness :
    lookupCommand (firstToken "hello") = none ∧
    newSlashCommand "hello" =
      Except.error ("Invalid command. " ++ firstToken "hello") :=
  ⟨by decide, classifier_rejects_unknown_token "hello" (by decide)⟩

/-- C1 counterexample: Clear is not Bye, the turn finishes normally, yet the
resulting world records zero autosave invocations — the Clear branch returns
before the autosave block. -/
theorem clear_skips_autosave_counterexample :
    handleSlashCommand (CommandRequest.bare Command.clear) exH exW =
      DispatchResult.ok [] exW ∧
    Command.clear ≠ Command.bye ∧
    exW.autosaveCalls = [] :=
  ⟨by decide, by decide, by decide⟩

/-- C1 amended: autosave runs exactly for the commands that fall through the
dispatcher's switch — Help, ModelStack, Sessions and the argument-less
File/Save/Load/Delete.  For those, the turn always completes normally with
the history unchanged (also when the autosave write fails: the failure is
caught), and exactly one autosave invocation is recorded, carrying the
resulting history and the current default model. -/
theorem autosave_only_after_fallthrough (c : Command) (h : List Message)
    (w : World)
    (hc : c ∈ [Command.help, Command.modelStack, Command.sessions,
               Command.file, Command.save, Command.load, Command.delete]) :
    ∃ w2, handleSlashCommand (CommandRequest.bare c) h w =
        DispatchResult.ok h w2 ∧
      w2.autosaveCalls = w.autosaveCalls ++ [(h, w.defaultModel)] := by
  have hcalls : (doAutoSave h w).autosaveCalls =
      w.autosaveCalls ++ [(h, w.defaultModel)] := by
    unfold doAutoSave
    split <;> rfl
  simp only [List.mem_cons, List.not_mem_nil, or_false] at hc
  rcases hc with rfl | rfl | rfl | rfl | rfl | rfl | rfl <;>
    exact ⟨doAutoSave h w, rfl, hcalls⟩

/-- C1 amended witness: a bare Help over a world whose autosave write
fails. -/
theorem autosave_only_after_fallthrough_witness :
    (Command.help ∈ [Command.help, Command.modelStack, Command.sessions,
        Command.file, Command.save, Command.load, Command.delete]) ∧
    ∃ w2, handleSlashCommand (CommandRequest.bare Command.help) exH exW =
        DispatchResult.ok exH w2 ∧
      w2.autosaveCalls = exW.autosaveCalls ++ [(exH, exW.defaultModel)] :=
  ⟨by decide, autosave_only_after_fallthrough Command.help exH exW (by decide)⟩

/-- C2 counterexample: the history `exHist2` ends with the at-mention turn,
its second-to-last entry is an AI turn, and an earlier user turn exists;
the code substitutes the AI turn's text — which is the text of no user turn
— instead of the most recent user turn's text. -/
theorem at_mention_substitution_counterexample :
    handleAtCommand "@claude-3" exHist2 "gpt-4" =
      { model := "claude-3", message := "the reply" } ∧
    (∀ m ∈ exHist2, m.role = Role.human → m.content ≠ "the reply") ∧
    handleAtCommand "@claude-3" exHist2 "gpt-4" ≠
      { model := "claude-3", message := "earlier question" } :=
  ⟨by decide, by decide, by decide⟩

/-- C2 amended: when the content after the model identifier is empty, the
substituted text is the content of the entry at index `length - 2` — the
second-to-last entry, whatever its role — provided the history holds
strictly more than two entries; otherwise the empty string is substituted.
The target model is the extracted identifier, or the default when the
extraction is empty. -/
theorem at_mention_empty_takes_second_to_last (input : String)
    (h : List Message) (model : String)
    (hAt : isAtCommand input = true)
    (hEmpty : (extractAtModel input).message = "") :
    handleAtCommand input h model =
      { model := if (extractAtModel input).model = "" then model
                 else (extractAtModel input).model,
        message := if 2 < h.length then
            (h.getD (h.length - 2)
              { role := Role.human, content := "" }).content
          else "" } := by
  simp only [handleAtCommand, hAt, not_true, if_false, hEmpty, ne_eq,
    not_true_eq_false, ite_false]
  have hmsg : (getMessageFromHistory h (-2)).getD "" =
      if 2 < h.length then
        (h.getD (h.length - 2) { role := Role.human, content := "" }).content
      else "" := by
    by_cases hl : 2 < h.length
    · have hcond : ((h.length : Int) > ((-2 : Int).natAbs : Int)) := by
        simp
        omega
      have hidx : (((h.length : Int) + (-2)).toNat) = h.length - 2 := by omega
      have hlt : h.length - 2 < h.length := by omega
      simp only [getMessageFromHistory, if_pos hcond, hidx,
        List.getElem?_eq_getElem hlt, Option.map_some, Option.getD_some,
        if_pos hl]
      rw [List.getD_eq_getElem?_getD, List.getElem?_eq_getElem hlt]
      rfl
    · have hcond : ¬ ((h.length : Int) > ((-2 : Int).natAbs : Int)) := by
        simp
        omega
      simp only [getMessageFromHistory, if_neg hcond, Option.getD_none,
        if_neg hl]
  rw [hmsg]
  by_cases hm : (extractAtModel input).model = "" <;> simp [hm]

/-- C2 amended witness at `"@claude-3"` over `exHist2`. -/
theorem at_mention_empty_takes_second_to_last_witness :
    isAtCommand "@claude-3" = true ∧
    (extractAtModel "@claude-3").message = "" ∧
    handleAtCommand "@claude-3" exHist2 "gpt-4" =
      { model := if (extractAtModel "@claude-3").model = "" then "gpt-4"
                 else (extractAtModel "@claude-3").model,
        message := if 2 < exHist2.length then
            (exHist2.getD (exHist2.length - 2)
              { role := Role.human, content := "" }).content
          else "" } :=
  ⟨by decide, by decide,
    at_mention_empty_takes_second_to_last "@claude-3" exHist2 "gpt-4"
      (by decide) (by decide)⟩

/-- C8: at the failing input — a stored record whose only message carries
the unknown role tag `"weird"` — `loadSession` substitutes the safe default
human role, but the ResumeLatest dispatcher path returns the parsed record
verbatim: the restore does not fail, yet the restored entry keeps the
unknown tag in the role position instead of a safe default role. -/
theorem resume_unknown_role_divergence :
    loadSession "s" exStore8 =
      Except.ok ("m-8", [{ role := Role.human, content := "x" }]) ∧
    reviveMessage { type := "weird", content := "x" } =
      { role := Role.human, content := "x" } ∧
    handleSlashCommand (CommandRequest.bare Command.resumeLatest) [] exW8 =
      DispatchResult.ok [{ role := Role.other "weird", content := "x" }]
        { exW8 with modelStack := ["m-8"], defaultModel := "m-8" } ∧
    Role.other "weird" ≠ Role.human :=
  ⟨by decide, by decide, by decide, by decide⟩

/-- C10: whenever a Save, Delete, Help, ModelStack or Sessions request —
bare or path-carrying — returns normally, the returned history is the very
history passed in; no message is added, removed or modified. -/
theorem read_only_commands_keep_history (req : CommandRequest)
    (h : List Message) (w : World)
    (hc : commandOf req ∈ [Command.save, Command.delete, Command.help,
          Command.modelStack, Command.sessions]) :
    ∀ h2 w2, handleSlashCommand req h w = DispatchResult.ok h2 w2 →
      h2 = h := by
  intro h2 w2 hres
  cases req with
  | bare c =>
      simp only [commandOf, List.mem_cons, List.not_mem_nil, or_false] at hc
      rcases hc with rfl | rfl | rfl | rfl | rfl <;>
        · simp only [handleSlashCommand, runBare, DispatchResult.ok.injEq] at hres
          exact hres.1.symm
  | withPath c p =>
      simp only [commandOf, List.mem_cons, List.not_mem_nil, or_false] at hc
      rcases hc with rfl | rfl | rfl | rfl | rfl
      · simp only [handleSlashCommand, DispatchResult.ok.injEq] at hres
        exact hres.1.symm
      · simp only [handleSlashCommand] at hres
        cases hd : deleteSessionStore p w.store with
        | error e => rw [hd] at hres; exact absurd hres (by simp)
        | ok s2 =>
            rw [hd] at hres
            simp only [DispatchResult.ok.injEq] at hres
            exact hres.1.symm
      · simp only [handleSlashCommand, runBare, DispatchResult.ok.injEq] at hres
        exact hres.1.symm
      · simp only [handleSlashCommand, runBare, DispatchResult.ok.injEq] at hres
        exact hres.1.symm
      · simp only [handleSlashCommand, runBare, DispatchResult.ok.injEq] at hres
        exact hres.1.symm

/-- C10 witness: a bare Help request over a concrete history and world. -/
theorem read_only_commands_keep_history_witness :
    (commandOf (CommandRequest.bare Command.help) ∈ [Command.save,
        Command.delete, Command.help, Command.modelStack, Command.sessions]) ∧
    (∀ h2 w2, handleSlashCommand (CommandRequest.bare Command.help) exH exW =
        DispatchResult.ok h2 w2 → h2 = exH) :=
  ⟨by decide,
    read_only_commands_keep_history (CommandRequest.bare Command.help)
      exH exW (by decide)⟩

/-- When the enumeration loop ends with no candidate, it started with none
and every session file it passed has mtime at most the running bound. -/
theorem resumeScan_eq_none (l : List DirEntry) :
    ∀ (b : Option DirEntry) (t : Nat), resumeScan l b t = none →
      b = none ∧ ∀ e ∈ l, sessionFileB e = true → e.mtime ≤ t := by
  induction l with
  | nil =>
      intro b t hb
      exact ⟨hb, by simp⟩
  | cons e rest ih =>
      intro b t hscan
      simp only [resumeScan] at hscan
      by_cases hc : (sessionFileB e && decide (t < e.mtime)) = true
      · rw [if_pos hc] at hscan
        rcases ih _ _ hscan with ⟨habs, -⟩
        exact absurd habs (by simp)
      · rw [if_neg hc] at hscan
        rcases ih _ _ hscan with ⟨hb, hrest⟩
        refine ⟨hb, ?_⟩
        intro x hx hsx
        rcases List.mem_cons.mp hx with rfl | hx2
        · simp [hsx] at hc
          omega
        · exact hrest x hx2 hsx

/-- When the enumeration loop ends with a candidate, that candidate either
came from the list — then it is a session file, beats the running bound and
dominates every session file of the list — or it was the incoming candidate
and nothing in the list beat the bound. -/
theorem resumeScan_eq_some (l : List DirEntry) :
    ∀ (b : Option DirEntry) (t : Nat) (r : DirEntry), resumeScan l b t = some r →
      (r ∈ l ∧ sessionFileB r = true ∧ t < r.mtime ∧
        ∀ e ∈ l, sessionFileB e = true → e.mtime ≤ r.mtime) ∨
      (b = some r ∧ ∀ e ∈ l, sessionFileB e = true → e.mtime ≤ t) := by
  induction l with
  | nil =>
      intro b t r hb
      right
      exact ⟨hb, by simp⟩
  | cons e rest ih =>
      intro b t r hscan
      simp only [resumeScan] at hscan
      by_cases hc : (sessionFileB e && decide (t < e.mtime)) = true
      · rw [if_pos hc] at hscan
        have hse : sessionFileB e = true := by
          simp at hc; exact hc.1
        have hte : t < e.mtime := by
          simp at hc; exact hc.2
        rcases ih _ _ _ hscan with ⟨hmem, hsr, htr, hmax⟩ | ⟨hbr, hrest⟩
        · left
          refine ⟨List.mem_cons_of_mem _ hmem, hsr, lt_trans hte htr, ?_⟩
          intro x hx hsx
          rcases List.mem_cons.mp hx with rfl | hx2
          · exact le_of_lt htr
          · exact hmax x hx2 hsx
        · injection hbr with hbr
          subst hbr
          left
          refine ⟨List.mem_cons_self _ _, hse, hte, ?_⟩
          intro x hx hsx
          rcases List.mem_cons.mp hx with rfl | hx2
          · exact le_refl _
          · exact hrest x hx2 hsx
      · rw [if_neg hc] at hscan
        rcases ih _ _ _ hscan with ⟨hmem, hsr, htr, hmax⟩ | ⟨hbr, hrest⟩
        · left
          refine ⟨List.mem_cons_of_mem _ hmem, hsr, htr, ?_⟩
          intro x hx hsx
          rcases List.mem_cons.mp hx with rfl | hx2
          · have hxt : x.mtime ≤ t := by
              simp [hsx] at hc
              omega
            exact le_trans hxt (le_of_lt htr)
          · exact hmax x hx2 hsx
        · right
          refine ⟨hbr, ?_⟩
          intro x hx hsx
          rcases List.mem_cons.mp hx with rfl | hx2
          · simp [hsx] at hc
            omega
          · exact hrest x hx2 hsx

/-- C7: over any session directory whose session-file mtimes are positive —
a real filesystem modification time is — ResumeLatest behaves as claimed:
with no `.json` file entry it yields no record and the dispatcher returns
the in-memory history unchanged with the world untouched; otherwise it
yields the record of a session file whose mtime is greatest among all
session files. -/
theorem resume_latest_picks_max_mtime (w : World) (h : List Message)
    (hpos : ∀ e ∈ w.store, sessionFileB e = true → 0 < e.mtime) :
    (w.store.filter sessionFileB = [] →
      resumeLatestSession w.store = none ∧
      handleSlashCommand (CommandRequest.bare Command.resumeLatest) h w =
        DispatchResult.ok h w) ∧
    (w.store.filter sessionFileB ≠ [] →
      ∃ e, e ∈ w.store ∧ sessionFileB e = true ∧
        resumeLatestSession w.store = some e.record ∧
        ∀ e2 ∈ w.store, sessionFileB e2 = true → e2.mtime ≤ e.mtime) := by
  constructor
  · intro hempty
    have hnone : resumeScan w.store none 0 = none := by
      cases hr : resumeScan w.store none 0 with
      | none => rfl
      | some r =>
          rcases resumeScan_eq_some _ _ _ _ hr with ⟨hmem, hsr, -, -⟩ | ⟨habs, -⟩
          · have : r ∈ w.store.filter sessionFileB :=
              List.mem_filter.mpr ⟨hmem, hsr⟩
            rw [hempty] at this
            exact absurd this (List.not_mem_nil r)
          · exact Option.noConfusion habs
    have hres : resumeLatestSession w.store = none := by
      simp [resumeLatestSession, hnone]
    refine ⟨hres, ?_⟩
    simp [handleSlashCommand, runBare, hres]
  · intro hne
    rcases List.exists_mem_of_ne_nil _ hne with ⟨x, hxf⟩
    rcases List.mem_filter.mp hxf with ⟨hx, hsx⟩
    cases hr : resumeScan w.store none 0 with
    | none =>
        rcases resumeScan_eq_none _ _ _ hr with ⟨-, hall⟩
        have h1 := hall x hx hsx
        have h2 := hpos x hx hsx
        omega
    | some r =>
        rcases resumeScan_eq_some _ _ _ _ hr with ⟨hmem, hsr, -, hmax⟩ | ⟨habs, -⟩
        · exact ⟨r, hmem, hsr, by simp [resumeLatestSession, hr], hmax⟩
        · exact Option.noConfusion habs

/-- C7 witness: a directory holding two session files (mtimes 5 and 9), a
non-json file and a non-file entry. -/
theorem resume_latest_picks_max_mtime_witness :
    (∀ e ∈ exW7.store, sessionFileB e = true → 0 < e.mtime) ∧
    ((exW7.store.filter sessionFileB = [] →
      resumeLatestSession exW7.store = none ∧
      handleSlashCommand (CommandRequest.bare Command.resumeLatest) exH exW7 =
        DispatchResult.ok exH exW7) ∧
    (exW7.store.filter sessionFileB ≠ [] →
      ∃ e, e ∈ exW7.store ∧ sessionFileB e = true ∧
        resumeLatestSession exW7.store = some e.record ∧
        ∀ e2 ∈ exW7.store, sessionFileB e2 = true → e2.mtime ≤ e.mtime)) :=
  ⟨by decide, resume_latest_picks_max_mtime exW7 exH (by decide)⟩

end GptCli
